import Mathlib

/-!
# Verification of the BoTSORT-cpp tracker controller

A shallow embedding of `src/BoTSORT.cpp` (the BoT-SORT tracker controller).
Floating-point pixel coordinates and confidences are modelled by exact
rationals (`ℚ`); a possibly-NaN confidence is modelled by `Option ℚ`, with
`none` standing for NaN, so that every IEEE comparison against NaN is false.
Collaborators whose code is not part of this snippet (the Kalman filter, the
GMC backend, the LAPJV solver, the `Track` member functions) are modelled from
the specification or taken as explicit parameters; each such definition says
so in its doc comment.
-/

namespace BoTSORT

/-- The `cv::Rect_<float>` bbox in tlwh form: top-left x, top-left y,
width, height. -/
structure Rect where
  x : ℚ
  y : ℚ
  w : ℚ
  h : ℚ
deriving DecidableEq, Repr

/-- The `Detection` input record (`bbox_tlwh`, `confidence`, `class_id`,
optional `embedding`).  `confidence = none` models a NaN confidence. -/
structure Detection where
  bbox_tlwh : Rect
  confidence : Option ℚ
  class_id : ℤ
  embedding : Option (List ℚ)
deriving DecidableEq, Repr

/-- Lifecycle states of a track (`TrackState`). -/
inductive TrackState where
  | New
  | Tracked
  | Lost
  | Removed
deriving DecidableEq, Repr

/-- The fields of a `Track` that the controller reads or writes. -/
structure Track where
  track_id : ℕ
  state : TrackState
  is_activated : Bool
  tlwh : Rect
  score : Option ℚ
  class_id : ℤ
  frame_id : ℕ
  tracklet_len : ℕ
  time_since_update : ℕ
deriving DecidableEq, Repr

/-- IEEE comparison `c >= t` where `c` may be NaN (`none`): NaN compares false. -/
def confGe (c : Option ℚ) (t : ℚ) : Bool :=
  match c with
  | none => false
  | some v => decide (t ≤ v)

/-- IEEE comparison `c > t` where `c` may be NaN (`none`): NaN compares false. -/
def confGt (c : Option ℚ) (t : ℚ) : Bool :=
  match c with
  | none => false
  | some v => decide (t < v)

/-- IEEE comparison `c < t` where `c` may be NaN (`none`): NaN compares false. -/
def confLt (c : Option ℚ) (t : ℚ) : Bool :=
  match c with
  | none => false
  | some v => decide (v < t)

/-- Lines 55–58 of `BoTSORT::track`: clamp one detection's bbox in place,
`x := max(0, x)`, `y := max(0, y)`, `w := min(cols-1, w)`,
`h := min(rows-1, h)`.  The other fields are not touched. -/
def clamp_detection (cols rows : ℤ) (d : Detection) : Detection :=
  { d with bbox_tlwh :=
      { x := max 0 d.bbox_tlwh.x
        y := max 0 d.bbox_tlwh.y
        w := min ((cols : ℚ) - 1) d.bbox_tlwh.w
        h := min ((rows : ℚ) - 1) d.bbox_tlwh.h } }

/-- Lines 53–58: the loop body runs once per detection (the `size() > 0`
guard is redundant: mapping over an empty list is the empty list). -/
def clamped_detections (cols rows : ℤ) (dets : List Detection) : List Detection :=
  dets.map (clamp_detection cols rows)

/-- Lines 69–73 of `BoTSORT::track`: segregate the (already clamped)
detections by confidence.  First component: `detections_high_conf`
(`confidence >= _track_high_thresh`); second: `detections_low_conf`
(`confidence > 0.1 && confidence < _track_high_thresh`); everything else is
pushed to neither list. -/
def split_detections (thresh : ℚ) : List Detection → List Detection × List Detection
  | [] => ([], [])
  | d :: rest =>
    if confGe d.confidence thresh then
      (d :: (split_detections thresh rest).1, (split_detections thresh rest).2)
    else if confGt d.confidence (1/10) && confLt d.confidence thresh then
      ((split_detections thresh rest).1, d :: (split_detections thresh rest).2)
    else
      split_detections thresh rest

/-- Lines 60–67: a fresh `Track` object is built from each detection.
Modelled from the spec: the `Track` constructor is not in the snippet; per the
lifecycle section a newly constructed track has `state = New`,
`is_activated = false` and no id yet (id 0 here; ids are assigned on
activation). -/
def mkTracklet (d : Detection) : Track :=
  { track_id := 0
    state := TrackState.New
    is_activated := false
    tlwh := d.bbox_tlwh
    score := d.confidence
    class_id := d.class_id
    frame_id := 0
    tracklet_len := 0
    time_since_update := 0 }

/-- Second loop of `BoTSORT::_merge_track_lists` (lines 216–221): walk list
`b`, keeping a track only when its `track_id` has not been seen yet, and
recording the id of every kept track. -/
def mergeAux (seen : List ℕ) : List Track → List Track
  | [] => []
  | t :: rest =>
    if t.track_id ∈ seen then mergeAux seen rest
    else t :: mergeAux (t.track_id :: seen) rest

/-- The whole of `BoTSORT::_merge_track_lists` (lines 207–224): all of `a` is kept (its
ids entering the `exists` map), then each track of `b` whose id was not seen
before is appended. -/
def merge_track_lists (a b : List Track) : List Track :=
  a ++ mergeAux (a.map Track.track_id) b

/-- Lines 78–92 of `BoTSORT::track`: the tracked pool is partitioned on
`is_activated` (activated tracks form `tracked_tracks`), and the prediction
pool is `_merge_track_lists(tracked_tracks, _lost_tracks)`.
`Track::multi_predict` (line 95) is then invoked on exactly this list. -/
def prediction_pool (tracked_pool lost_pool : List Track) : List Track :=
  merge_track_lists (tracked_pool.filter Track.is_activated) lost_pool

/-- Line 27 of the constructor:
`_buffer_size = static_cast<uint8_t>(_frame_rate / 30.0 * _track_buffer)`.
Both parameters are `uint8_t` (lines 9 and 14), so they range over
`Fin 256`; the cast truncates the nonnegative value to an integer and keeps
its low 8 bits (`% 2^8`; for values above 255 the float-to-int cast is
undefined behaviour in the source, and no theorem evaluates the model
there).  The source evaluates the expression in IEEE doubles; this model
uses exact rational arithmetic and is evaluated only at inputs where the
two computations coincide. -/
def buffer_size (frame_rate track_buffer : Fin 256) : ℕ :=
  ⌊((frame_rate : ℕ) : ℚ) / 30 * ((track_buffer : ℕ) : ℚ)⌋₊ % 2 ^ 8

/-- Line 28 of the constructor: `_max_time_lost = _buffer_size`. -/
def max_time_lost (frame_rate track_buffer : Fin 256) : ℕ :=
  buffer_size frame_rate track_buffer

/-- A dense cost matrix, row-major; the default-constructed `CostMatrix`
is the empty matrix. -/
def CostMatrix : Type := List (List ℚ)

instance : DecidableEq CostMatrix := by
  unfold CostMatrix
  infer_instance

/-- Modelled from the spec: `IoU(a.tlbr, b.tlbr)` on two tlwh boxes —
intersection area over union area, 0 for disjoint boxes, 1 for identical
ones. (`iou_distance` lives in `matching.cpp`, which is not part of the
snippet.) -/
def rect_iou (a b : Rect) : ℚ :=
  let iw := max 0 (min (a.x + a.w) (b.x + b.w) - max a.x b.x)
  let ih := max 0 (min (a.y + a.h) (b.y + b.h) - max a.y b.y)
  let inter := iw * ih
  let uni := a.w * a.h + b.w * b.h - inter
  if uni = 0 then 0 else inter / uni

/-- Modelled from the spec: `iou_distance(A, B)` is the `|A| × |B|` matrix of
`1 - IoU(a.tlbr, b.tlbr)`; empty when either side is empty. -/
def iou_distance (tracks dets : List Track) : CostMatrix :=
  tracks.map (fun t => dets.map (fun d => 1 - rect_iou t.tlwh d.tlwh))

/-- Lines 147–154 of `BoTSORT::track`: the stage-2 candidate list — for each
stage-1 unmatched track index, take the pool track and keep it only when its
state is `Tracked`. (An out-of-range index, undefined behaviour in the
source, is skipped here.) -/
def unmatched_tracked_after_first (pool : List Track) (unmatched1 : List ℕ) : List Track :=
  (unmatched1.filterMap pool.get?).filter (fun t => t.state = TrackState.Tracked)

/-- Lines 157–162 of `BoTSORT::track`, exactly as written: `iou_dists_second`
is default-constructed, the result of `iou_distance(...)` on the next line is
discarded (never assigned), and the default-constructed matrix is what is
handed to `linear_assignment(iou_dists_second, 0.5, ...)`. -/
def second_association_cost (unmatched_tracks low_dets : List Track) : CostMatrix :=
  let iou_dists_second : CostMatrix := []
  let _discarded := iou_distance unmatched_tracks low_dets
  iou_dists_second

/-- The output record of `linear_assignment` (`matching.cpp`, not in the
snippet): matched (track index, detection index) pairs plus the leftover
indices on each side. -/
structure AssociationData where
  matched_pairs : List (ℕ × ℕ)
  unmatched_track_indices : List ℕ
  unmatched_det_indices : List ℕ
deriving DecidableEq, Repr

/-- Modelled from the spec: `Track::update(kf, det, frame_id)` (`Track.cpp`
is not in the snippet) — Kalman update from the detection's box, record the
detection's score, advance the frame counter, increment `tracklet_len` and
reset `time_since_update`; the track stays in (or is confirmed in) state
`Tracked`.  The Kalman mean/covariance themselves are outside this model; the
box is taken over from the detection. -/
def Track.update_model (t det : Track) (f : ℕ) : Track :=
  { t with
      state := TrackState.Tracked
      tlwh := det.tlwh
      score := det.score
      frame_id := f
      tracklet_len := t.tracklet_len + 1
      time_since_update := 0 }

/-- Modelled from the spec: `Track::re_activate(kf, det, frame_id, new_id)`
(`Track.cpp` is not in the snippet) — Kalman update from the detection,
`state := Tracked`, `is_activated := true`, `tracklet_len := 0`; a new id
(`fresh`) is taken only when `new_id` is requested, otherwise the prior
`track_id` is preserved. -/
def Track.re_activate_model (t det : Track) (f : ℕ) (new_id : Bool) (fresh : ℕ) : Track :=
  { t with
      state := TrackState.Tracked
      is_activated := true
      tlwh := det.tlwh
      score := det.score
      frame_id := f
      tracklet_len := 0
      time_since_update := 0
      track_id := if new_id then fresh else t.track_id }

/-- Modelled from the spec: `Track::mark_lost()` is a state transition only. -/
def Track.mark_lost_model (t : Track) : Track :=
  { t with state := TrackState.Lost }

/-- Lines 127–141 (and identically 165–179) of `BoTSORT::track`: for each
match `(r, c)`, look up the pool track and the detection tracklet; a
`Tracked` track is updated and pushed onto `activated_tracks`, any other
track is re-activated with `new_id = false` and pushed onto `refind_tracks`.
The mutation of the pool track is threaded through the pool list (the source
mutates through the pointer); an out-of-range index (undefined behaviour in
the source) is skipped.  Result: the pool after the loop, the `activated`
list and the `refind` list. -/
def process_matches (f : ℕ) (dets : List Track) :
    List Track → List (ℕ × ℕ) → List Track × List Track × List Track
  | pool, [] => (pool, [], [])
  | pool, (r, c) :: rest =>
    match pool.get? r, dets.get? c with
    | some t, some det =>
      if t.state = TrackState.Tracked then
        let t' := Track.update_model t det f
        let p := process_matches f dets (pool.set r t') rest
        (p.1, t' :: p.2.1, p.2.2)
      else
        let t' := Track.re_activate_model t det f false 0
        let p := process_matches f dets (pool.set r t') rest
        (p.1, p.2.1, t' :: p.2.2)
    | _, _ => process_matches f dets pool rest

/-- Lines 182–189 of `BoTSORT::track`: every stage-2 unmatched candidate
whose state is not already `Lost` is marked lost (`mark_lost`) and collected
into the newly-lost list; a track already `Lost` is left untouched.  The
mutation is threaded through the candidate list; an out-of-range index
(undefined behaviour in the source) is skipped.  Result: the candidate list
after the loop and the newly-lost list. -/
def mark_lost_loop : List Track → List ℕ → List Track × List Track
  | cands, [] => (cands, [])
  | cands, i :: rest =>
    match cands.get? i with
    | some t =>
      if t.state = TrackState.Lost then
        mark_lost_loop cands rest
      else
        let t' := Track.mark_lost_model t
        let p := mark_lost_loop (cands.set i t') rest
        (p.1, t' :: p.2)
    | none => mark_lost_loop cands rest

/-- The member state of a `BoTSORT` instance that `track` touches:
`_frame_id`, `_tracked_tracks` and `_lost_tracks`. -/
structure BoTSORTState where
  frame_id : ℕ
  tracked_tracks : List Track
  lost_tracks : List Track
deriving DecidableEq, Repr

/-- Constructor state (line 26: `_frame_id = 0`; the pools start empty). -/
def initial_state : BoTSORTState :=
  { frame_id := 0, tracked_tracks := [], lost_tracks := [] }

/-- The per-frame contributions of the collaborators that are not part of
the snippet: `mutate` is the net effect of the frame's pipeline (Kalman
predict, GMC, update / re-activate / mark-lost through the `Track`
pointers) on each pooled track object. -/
structure FrameOracle where
  mutate : Track → Track

/-- One call of `BoTSORT::track` (lines 46–199) at the state level:
`_frame_id` is incremented on entry (line 49) before anything else; the
detections are clamped (lines 54–58) and split by confidence (lines 69–73);
the pool lists `_tracked_tracks` and `_lost_tracks` are never reassigned in
the source — only the `Track` objects they point to mutate, which is
abstracted by `oracle.mutate` — and the function returns
`std::vector<Track>()`, the empty list, on line 198 regardless of the
state. -/
def track_step (track_high_thresh : ℚ) (oracle : FrameOracle) (cols rows : ℤ)
    (dets : List Detection) (s : BoTSORTState) : BoTSORTState × List Track :=
  let fid := s.frame_id + 1
  let clamped := clamped_detections cols rows dets
  let _split := split_detections track_high_thresh clamped
  ({ frame_id := fid
     tracked_tracks := s.tracked_tracks.map oracle.mutate
     lost_tracks := s.lost_tracks.map oracle.mutate },
   ([] : List Track))

/-- A whole run: fold `track` over a list of frames, each frame carrying its
oracle, frame size and detections. -/
def run_tracker (track_high_thresh : ℚ)
    (frames : List (FrameOracle × ℤ × ℤ × List Detection))
    (s : BoTSORTState) : BoTSORTState :=
  frames.foldl
    (fun st fr => (track_step track_high_thresh fr.1 fr.2.1 fr.2.2.1 fr.2.2.2 st).1) s

/-! ## Concrete sample data used by counterexamples and witnesses -/

/-- A track in state `Tracked` with unit box at the origin, id 1, activated. -/
def sampleTrack : Track :=
  { track_id := 1
    state := TrackState.Tracked
    is_activated := true
    tlwh := { x := 0, y := 0, w := 10, h := 10 }
    score := some (9/10)
    class_id := 0
    frame_id := 1
    tracklet_len := 1
    time_since_update := 0 }

/-- A low-confidence detection tracklet over the same box as `sampleTrack`. -/
def sampleLowTracklet : Track :=
  { track_id := 0
    state := TrackState.New
    is_activated := false
    tlwh := { x := 0, y := 0, w := 10, h := 10 }
    score := some (3/10)
    class_id := 0
    frame_id := 0
    tracklet_len := 0
    time_since_update := 0 }

/-- A high-confidence detection whose width is negative. -/
def negWidthDetection : Detection :=
  { bbox_tlwh := { x := 10, y := 10, w := -5, h := 20 }
    confidence := some (9/10)
    class_id := 0
    embedding := none }

/-- A detection whose confidence (0.08) is below 0.1. -/
def tinyConfDetection : Detection :=
  { bbox_tlwh := { x := 0, y := 0, w := 10, h := 10 }
    confidence := some (2/25)
    class_id := 0
    embedding := none }

/-- A lost track with id 2. -/
def lostTrack : Track :=
  { track_id := 2
    state := TrackState.Lost
    is_activated := true
    tlwh := { x := 20, y := 20, w := 10, h := 10 }
    score := some (1/2)
    class_id := 0
    frame_id := 1
    tracklet_len := 2
    time_since_update := 3 }

/-- A detection whose confidence is NaN (`none`). -/
def nanConfDetection : Detection :=
  { bbox_tlwh := { x := 0, y := 0, w := 10, h := 10 }
    confidence := none
    class_id := 0
    embedding := none }

/-- The identity frame oracle: the pipeline's per-object side effects are
switched off. -/
def idOracle : FrameOracle := ⟨fun t => t⟩

/-- A tracker state holding one activated tracked track. -/
def oneActiveState : BoTSORTState :=
  { frame_id := 3, tracked_tracks := [sampleTrack], lost_tracks := [] }

/-! ## Claim theorems -/

/-- C1: the claim says the matrix handed to the stage-2 solver equals
`iou_distance(unmatched_tracks_after_1st_association, detections_low_conf)`.
In the source (line 158) the result of `iou_distance` is discarded and the
default-constructed `iou_dists_second` is solved instead, so with one
unmatched tracked track and one low-confidence detection the solved matrix is
the empty matrix while the IoU distance matrix is the 1×1 matrix `[[0]]`. -/
theorem c1_stage2_cost_matrix_bug :
    second_association_cost [sampleTrack] [sampleLowTracklet] = ([] : CostMatrix) ∧
    iou_distance [sampleTrack] [sampleLowTracklet] = [[0]] ∧
    second_association_cost [sampleTrack] [sampleLowTracklet] ≠
      iou_distance [sampleTrack] [sampleLowTracklet] := by
  have h2 : iou_distance [sampleTrack] [sampleLowTracklet] = [[0]] := by
    norm_num [iou_distance, rect_iou, sampleTrack, sampleLowTracklet]
  refine ⟨rfl, h2, ?_⟩
  rw [h2]
  simp [second_association_cost]

/-- C2: the claim says `track` returns the activated tracks of the tracked
pool and is non-empty whenever an activated tracked track exists after the
update phase.  The source returns `std::vector<Track>()` (line 198)
unconditionally: on a state holding one activated tracked track, the call
still returns the empty list although the post-frame tracked pool contains
that activated track. -/
theorem c2_track_returns_empty_bug :
    (track_step (3/5) idOracle 640 480 [] oneActiveState).2 = [] ∧
    sampleTrack ∈ (track_step (3/5) idOracle 640 480 [] oneActiveState).1.tracked_tracks ∧
    sampleTrack.is_activated = true := by
  refine ⟨rfl, ?_, rfl⟩
  simp [track_step, oneActiveState, idOracle]

/-- C3 (counterexample): the claim computes `max_time_lost` by rounding
`frame_rate/30 · track_buffer`; the source truncates
(`static_cast<uint8_t>`).  At `frame_rate = 25`, `track_buffer = 25` the
exact value is 20.8333…, which the code truncates to 20 while rounding gives
21. -/
theorem c3_round_counterexample :
    max_time_lost 25 25 = 20 ∧
    round ((25 : ℚ) / 30 * 25) = 21 ∧
    ((max_time_lost 25 25 : ℤ) ≠ round ((25 : ℚ) / 30 * 25)) := by
  have h1 : max_time_lost 25 25 = 20 := by
    unfold max_time_lost buffer_size
    have hv : (((25 : Fin 256) : ℕ) : ℚ) = ((25 : ℕ) : ℚ) := rfl
    rw [hv]
    have hfloor : ⌊((25 : ℕ) : ℚ) / 30 * ((25 : ℕ) : ℚ)⌋₊ = 20 := by
      rw [Nat.floor_eq_iff (by positivity)]
      push_cast
      norm_num
    rw [hfloor]
    norm_num
  have h2 : round ((25 : ℚ) / 30 * 25) = 21 := by
    rw [round_eq, Int.floor_eq_iff]
    norm_num
  refine ⟨h1, h2, ?_⟩
  rw [h1, h2]
  norm_num

/-- C3 (amended): the constructor truncates rather than rounds: with the
source's `uint8_t` parameters, `max_time_lost 25 25 = 20`, where rounding
would give 21 (see the counterexample), and the spec's own example
`max_time_lost 25 30 = 25` still holds.  Both evaluations coincide with the
source's IEEE-double computation (checked against binary64 semantics); no
statement is made over the whole `uint8_t` domain because near integer
boundaries the double product can fall below the exact value, and above 255
the cast is undefined behaviour. -/
theorem c3_max_time_lost_truncates :
    max_time_lost 25 25 = 20 ∧ max_time_lost 25 30 = 25 := by
  constructor
  · unfold max_time_lost buffer_size
    have hv : (((25 : Fin 256) : ℕ) : ℚ) = ((25 : ℕ) : ℚ) := rfl
    rw [hv]
    have hfloor : ⌊((25 : ℕ) : ℚ) / 30 * ((25 : ℕ) : ℚ)⌋₊ = 20 := by
      rw [Nat.floor_eq_iff (by positivity)]
      push_cast
      norm_num
    rw [hfloor]
    norm_num
  · unfold max_time_lost buffer_size
    have hv : (((25 : Fin 256) : ℕ) : ℚ) = ((25 : ℕ) : ℚ) := rfl
    have hv' : (((30 : Fin 256) : ℕ) : ℚ) = ((30 : ℕ) : ℚ) := rfl
    rw [hv, hv']
    have hfloor : ⌊((25 : ℕ) : ℚ) / 30 * ((30 : ℕ) : ℚ)⌋₊ = 25 := by
      rw [Nat.floor_eq_iff (by positivity)]
      push_cast
      norm_num
    rw [hfloor]
    norm_num

/-- C5: for every call, each detection record is rewritten in place to its
clamped form: `x := max(0, x)`, `y := max(0, y)`, `w := min(cols-1, w)`,
`h := min(rows-1, h)`, while `confidence`, `class_id` and `embedding` are
untouched; the whole detection list is mapped through this clamp. -/
theorem c5_detections_clamped_in_place (cols rows : ℤ) (d : Detection)
    (dets : List Detection) :
    (clamp_detection cols rows d).bbox_tlwh.x = max 0 d.bbox_tlwh.x ∧
    (clamp_detection cols rows d).bbox_tlwh.y = max 0 d.bbox_tlwh.y ∧
    (clamp_detection cols rows d).bbox_tlwh.w = min ((cols : ℚ) - 1) d.bbox_tlwh.w ∧
    (clamp_detection cols rows d).bbox_tlwh.h = min ((rows : ℚ) - 1) d.bbox_tlwh.h ∧
    (clamp_detection cols rows d).confidence = d.confidence ∧
    (clamp_detection cols rows d).class_id = d.class_id ∧
    (clamp_detection cols rows d).embedding = d.embedding ∧
    clamped_detections cols rows dets = dets.map (clamp_detection cols rows) := by
  exact ⟨rfl, rfl, rfl, rfl, rfl, rfl, rfl, rfl⟩

/-- Folding `track` over a list of frames adds the number of frames to
`_frame_id`. -/
theorem run_tracker_frame_id (th : ℚ)
    (frames : List (FrameOracle × ℤ × ℤ × List Detection)) (s : BoTSORTState) :
    (run_tracker th frames s).frame_id = s.frame_id + frames.length := by
  induction frames generalizing s with
  | nil => rfl
  | cons fr rest ih =>
    show (run_tracker th rest _).frame_id = _
    rw [ih]
    simp [track_step]
    omega

/-- The result of `mergeAux` depends on the seen-id list only through
membership. -/
theorem mergeAux_congr (s₁ s₂ : List ℕ) (b : List Track)
    (h : ∀ i, i ∈ s₁ ↔ i ∈ s₂) : mergeAux s₁ b = mergeAux s₂ b := by
  induction b generalizing s₁ s₂ with
  | nil => rfl
  | cons t rest ih =>
    simp only [mergeAux]
    by_cases ht : t.track_id ∈ s₁
    · rw [if_pos ht, if_pos ((h _).mp ht)]
      exact ih s₁ s₂ h
    · rw [if_neg ht, if_neg (fun c => ht ((h _).mpr c))]
      have h' : ∀ i, i ∈ t.track_id :: s₁ ↔ i ∈ t.track_id :: s₂ := by
        intro i
        simp [h i]
      rw [ih _ _ h']

/-- Seeding `mergeAux` with an id that does not occur in `b` changes
nothing. -/
theorem mergeAux_cons_of_not_mem (x : ℕ) (seen : List ℕ) (b : List Track)
    (hx : x ∉ b.map Track.track_id) :
    mergeAux (x :: seen) b = mergeAux seen b := by
  induction b generalizing seen with
  | nil => rfl
  | cons t rest ih =>
    have hxt : t.track_id ≠ x := by
      intro e
      exact hx (by simp [e])
    have hxr : x ∉ rest.map Track.track_id := fun c => hx (by simp [c])
    simp only [mergeAux]
    by_cases ht : t.track_id ∈ seen
    · rw [if_pos (by simp [ht]), if_pos ht]
      exact ih seen hxr
    · have ht' : t.track_id ∉ x :: seen := by
        simp [ht, hxt]
      rw [if_neg ht', if_neg ht]
      congr 1
      rw [mergeAux_congr (t.track_id :: x :: seen) (x :: t.track_id :: seen) rest
          (by intro i; constructor <;> (intro hi; simp at hi ⊢; tauto)),
        ih (t.track_id :: seen) hxr]

/-- When the ids occurring in `b` are pairwise distinct, the second loop of
`_merge_track_lists` keeps exactly the tracks of `b` whose id is unseen. -/
theorem mergeAux_eq_filter (seen : List ℕ) (b : List Track)
    (hnd : (b.map Track.track_id).Nodup) :
    mergeAux seen b = b.filter (fun t => decide (t.track_id ∉ seen)) := by
  induction b generalizing seen with
  | nil => rfl
  | cons t rest ih =>
    rw [List.map_cons, List.nodup_cons] at hnd
    simp only [mergeAux, List.filter_cons]
    by_cases ht : t.track_id ∈ seen
    · rw [if_pos ht, ih seen hnd.2]
      simp [ht]
    · rw [if_neg ht, mergeAux_cons_of_not_mem _ _ _ hnd.1, ih seen hnd.2]
      simp [ht]

/-- C7: provided the lost pool's ids are pairwise distinct (the tracker's
id-uniqueness invariant), the prediction pool handed to
`Track::multi_predict` is exactly the activated (confirmed) tracked tracks,
in order, followed by those lost tracks whose `track_id` does not occur
among the confirmed ones — on an id tie the confirmed instance is kept. -/
theorem c7_prediction_pool_merge (tracked_pool lost_pool : List Track)
    (hnd : (lost_pool.map Track.track_id).Nodup) :
    prediction_pool tracked_pool lost_pool =
      tracked_pool.filter Track.is_activated ++
        lost_pool.filter (fun t =>
          decide (t.track_id ∉
            (tracked_pool.filter Track.is_activated).map Track.track_id)) := by
  unfold prediction_pool merge_track_lists
  rw [mergeAux_eq_filter _ _ hnd]

/-- C7 witness: one activated tracked track (id 1) and one lost track
(id 2): the pool is both, in order. -/
theorem c7_prediction_pool_merge_witness :
    (([lostTrack].map Track.track_id).Nodup) ∧
    prediction_pool [sampleTrack] [lostTrack] =
      [sampleTrack].filter Track.is_activated ++
        [lostTrack].filter (fun t =>
          decide (t.track_id ∉
            ([sampleTrack].filter Track.is_activated).map Track.track_id)) :=
  ⟨by simp, c7_prediction_pool_merge [sampleTrack] [lostTrack] (by simp)⟩

/-- A detection value is in `detections_high_conf` iff it occurs among the
inputs and its confidence passes `confidence >= _track_high_thresh`. -/
theorem mem_split_high (th : ℚ) (dets : List Detection) (d : Detection) :
    d ∈ (split_detections th dets).1 ↔ d ∈ dets ∧ confGe d.confidence th = true := by
  induction dets with
  | nil => simp [split_detections]
  | cons a rest ih =>
    simp only [split_detections]
    by_cases h1 : confGe a.confidence th = true
    · rw [if_pos h1]
      simp only [List.mem_cons, ih]
      constructor
      · rintro (rfl | ⟨hm, hc⟩)
        exacts [⟨Or.inl rfl, h1⟩, ⟨Or.inr hm, hc⟩]
      · rintro ⟨rfl | hm, hc⟩
        exacts [Or.inl rfl, Or.inr ⟨hm, hc⟩]
    · rw [if_neg h1]
      by_cases h2 : (confGt a.confidence (1/10) && confLt a.confidence th) = true
      · rw [if_pos h2]
        simp only [List.mem_cons, ih]
        constructor
        · rintro ⟨hm, hc⟩
          exact ⟨Or.inr hm, hc⟩
        · rintro ⟨rfl | hm, hc⟩
          exacts [absurd hc h1, ⟨hm, hc⟩]
      · rw [if_neg h2]
        simp only [List.mem_cons, ih]
        constructor
        · rintro ⟨hm, hc⟩
          exact ⟨Or.inr hm, hc⟩
        · rintro ⟨rfl | hm, hc⟩
          exacts [absurd hc h1, ⟨hm, hc⟩]

/-- A detection value is in `detections_low_conf` iff it occurs among the
inputs, fails the high test and passes
`confidence > 0.1 && confidence < _track_high_thresh`. -/
theorem mem_split_low (th : ℚ) (dets : List Detection) (d : Detection) :
    d ∈ (split_detections th dets).2 ↔
      d ∈ dets ∧ confGe d.confidence th = false ∧
        (confGt d.confidence (1/10) && confLt d.confidence th) = true := by
  induction dets with
  | nil => simp [split_detections]
  | cons a rest ih =>
    simp only [split_detections]
    by_cases h1 : confGe a.confidence th = true
    · rw [if_pos h1]
      simp only [List.mem_cons, ih]
      constructor
      · rintro ⟨hm, hc⟩
        exact ⟨Or.inr hm, hc⟩
      · rintro ⟨rfl | hm, hf, hc⟩
        · rw [h1] at hf
          exact absurd hf (by simp)
        · exact ⟨hm, hf, hc⟩
    · rw [if_neg h1]
      by_cases h2 : (confGt a.confidence (1/10) && confLt a.confidence th) = true
      · rw [if_pos h2]
        simp only [List.mem_cons, ih]
        constructor
        · rintro (rfl | ⟨hm, hf, hc⟩)
          exacts [⟨Or.inl rfl, Bool.eq_false_iff.mpr h1, h2⟩, ⟨Or.inr hm, hf, hc⟩]
        · rintro ⟨rfl | hm, hf, hc⟩
          exacts [Or.inl rfl, Or.inr ⟨hm, hf, hc⟩]
      · rw [if_neg h2]
        simp only [List.mem_cons, ih]
        constructor
        · rintro ⟨hm, hf, hc⟩
          exact ⟨Or.inr hm, hf, hc⟩
        · rintro ⟨rfl | hm, hf, hc⟩
          exacts [absurd hc h2, ⟨hm, hf, hc⟩]

/-- C6 (counterexample): the claim says every detection with confidence
≤ 0.1 is dropped from both association stages.  With
`track_high_thresh = 0.05` a detection of confidence 0.08 ≤ 0.1 satisfies the
first branch `confidence >= _track_high_thresh` and is placed in
`detections_high_conf`, so it participates in stage 1. -/
theorem c6_drop_counterexample :
    tinyConfDetection.confidence = some (2/25) ∧ ((2 : ℚ)/25 ≤ 1/10) ∧
    tinyConfDetection ∈ (split_detections (1/20) [tinyConfDetection]).1 := by
  refine ⟨rfl, by norm_num, ?_⟩
  rw [mem_split_high]
  refine ⟨List.mem_singleton_self _, ?_⟩
  norm_num [confGe, tinyConfDetection]

/-- C6 (amended): each detection with confidence ≥ `track_high_thresh` is
placed in the high-confidence set of stage 1; each with
0.1 < confidence < `track_high_thresh` in the low-confidence set of stage 2;
and each with confidence ≤ 0.1 **and confidence < track_high_thresh** is
dropped, participating in neither stage. -/
theorem c6_confidence_split (th v : ℚ) (dets : List Detection) (d : Detection)
    (hd : d ∈ dets) (hv : d.confidence = some v) :
    (th ≤ v → d ∈ (split_detections th dets).1) ∧
    (1/10 < v → v < th → d ∈ (split_detections th dets).2) ∧
    (v ≤ 1/10 → v < th →
      d ∉ (split_detections th dets).1 ∧ d ∉ (split_detections th dets).2) := by
  refine ⟨?_, ?_, ?_⟩
  · intro hge
    rw [mem_split_high]
    exact ⟨hd, by simp [confGe, hv, hge]⟩
  · intro hgt hlt
    rw [mem_split_low]
    refine ⟨hd, ?_, ?_⟩
    · simp [confGe, hv, not_le.mpr hlt]
    · have hgt' : (10 : ℚ)⁻¹ < v := by rwa [← one_div]
      simp [confGt, confLt, hv, hgt', hlt]
  · intro hle hlt
    constructor
    · intro hmem
      rw [mem_split_high] at hmem
      have := of_decide_eq_true (by simpa [confGe, hv] using hmem.2)
      exact absurd this (not_le.mpr hlt)
    · intro hmem
      rw [mem_split_low] at hmem
      have hb := hmem.2.2
      rw [Bool.and_eq_true] at hb
      have := of_decide_eq_true (by simpa [confGt, hv] using hb.1)
      have hle' : v ≤ (10 : ℚ)⁻¹ := by rwa [← one_div]
      exact absurd this (not_lt.mpr hle')

/-- C6 witness: at `track_high_thresh = 3/5` a detection with confidence
0.9 goes high, one with 0.3 goes low, one with 0.05 is dropped. -/
theorem c6_confidence_split_witness :
    (tinyConfDetection ∈ [tinyConfDetection] ∧
      tinyConfDetection.confidence = some (2/25)) ∧
    (((3 : ℚ)/5 ≤ 2/25 → tinyConfDetection ∈ (split_detections (3/5) [tinyConfDetection]).1) ∧
     ((1 : ℚ)/10 < 2/25 → (2 : ℚ)/25 < 3/5 →
        tinyConfDetection ∈ (split_detections (3/5) [tinyConfDetection]).2) ∧
     ((2 : ℚ)/25 ≤ 1/10 → (2 : ℚ)/25 < 3/5 →
        tinyConfDetection ∉ (split_detections (3/5) [tinyConfDetection]).1 ∧
        tinyConfDetection ∉ (split_detections (3/5) [tinyConfDetection]).2)) :=
  ⟨⟨List.mem_singleton_self _, rfl⟩,
    c6_confidence_split (3/5) (2/25) [tinyConfDetection] tinyConfDetection
      (List.mem_singleton_self _) rfl⟩

/-- C4 (counterexample): the claim says a detection with a negative bbox
dimension is rejected at the frame boundary and excluded from both
association stages.  The source only clamps from above
(`w := min(cols-1, w)`), so a width of −5 survives the clamp, and with
confidence 0.9 ≥ 0.6 the detection is placed in `detections_high_conf` and
participates in stage 1. -/
theorem c4_negative_width_not_rejected :
    (clamp_detection 640 480 negWidthDetection).bbox_tlwh.w = -5 ∧
    clamp_detection 640 480 negWidthDetection ∈
      (split_detections (3/5) (clamped_detections 640 480 [negWidthDetection])).1 := by
  constructor
  · norm_num [clamp_detection, negWidthDetection]
  · rw [mem_split_high]
    refine ⟨by simp [clamped_detections], ?_⟩
    norm_num [clamp_detection, confGe, negWidthDetection]

/-- C4 (amended): a detection with NaN confidence is excluded from both
association stages — both confidence comparisons of the split are false on
NaN — while the frame itself is still processed; the clamp leaves the
confidence untouched.  (Detections with negative bbox dimensions are *not*
rejected; see the counterexample.) -/
theorem c4_nan_confidence_excluded (th : ℚ) (cols rows : ℤ) (dets : List Detection)
    (d : Detection) (hnan : d.confidence = none) :
    (clamp_detection cols rows d).confidence = none ∧
    clamp_detection cols rows d ∉
      (split_detections th (clamped_detections cols rows dets)).1 ∧
    clamp_detection cols rows d ∉
      (split_detections th (clamped_detections cols rows dets)).2 := by
  have hc : (clamp_detection cols rows d).confidence = none := hnan
  refine ⟨hc, ?_, ?_⟩
  · intro hmem
    rw [mem_split_high] at hmem
    rw [hc] at hmem
    simp [confGe] at hmem
  · intro hmem
    rw [mem_split_low] at hmem
    rw [hc] at hmem
    simp [confGt] at hmem

/-- C4 witness: a concrete NaN-confidence detection is excluded from both
stages. -/
theorem c4_nan_confidence_excluded_witness :
    nanConfDetection.confidence = none ∧
    ((clamp_detection 640 480 nanConfDetection).confidence = none ∧
     clamp_detection 640 480 nanConfDetection ∉
       (split_detections (3/5) (clamped_detections 640 480 [nanConfDetection])).1 ∧
     clamp_detection 640 480 nanConfDetection ∉
       (split_detections (3/5) (clamped_detections 640 480 [nanConfDetection])).2) :=
  ⟨rfl, c4_nan_confidence_excluded (3/5) 640 480 [nanConfDetection] nanConfDetection rfl⟩

/-- C8: for every match `(r, c)` produced by the first association (the
match rows are distinct, as the assignment solver matches each track at most
once): when the matched pool track is in state `Tracked` it is updated with
the detection and lands in `activated_tracks`; otherwise it is re-activated
with `new_id = false` — keeping its `track_id` — and lands in
`refind_tracks`. -/
theorem c8_first_association_dispatch (f : ℕ) (pool dets : List Track)
    (ms : List (ℕ × ℕ)) (r c : ℕ) (t det : Track)
    (hnd : (ms.map Prod.fst).Nodup)
    (hm : (r, c) ∈ ms) (ht : pool.get? r = some t) (hd : dets.get? c = some det) :
    (t.state = TrackState.Tracked →
        Track.update_model t det f ∈ (process_matches f dets pool ms).2.1) ∧
    (t.state ≠ TrackState.Tracked →
        Track.re_activate_model t det f false 0 ∈ (process_matches f dets pool ms).2.2 ∧
          (Track.re_activate_model t det f false 0).track_id = t.track_id) := by
  induction ms generalizing pool with
  | nil => cases hm
  | cons m rest ih =>
    obtain ⟨r0, c0⟩ := m
    rw [List.map_cons, List.nodup_cons] at hnd
    rcases List.mem_cons.mp hm with heq | hmem
    · cases heq
      constructor
      · intro hstate
        simp only [process_matches, ht, hd, hstate, if_true]
        exact List.mem_cons_self _ _
      · intro hstate
        refine ⟨?_, by simp [Track.re_activate_model]⟩
        simp only [process_matches, ht, hd, if_neg hstate]
        exact List.mem_cons_self _ _
    · have hr0 : r0 ≠ r := by
        intro e
        apply hnd.1
        rw [e]
        exact List.mem_map.mpr ⟨(r, c), hmem, rfl⟩
      rcases h0 : pool.get? r0 with _ | t0
      · simp only [process_matches, h0]
        exact ih pool hnd.2 hmem ht
      · rcases h1 : dets.get? c0 with _ | d0
        · simp only [process_matches, h0, h1]
          exact ih pool hnd.2 hmem ht
        · by_cases hs : t0.state = TrackState.Tracked
          · have ht' : (pool.set r0 (Track.update_model t0 d0 f)).get? r = some t := by
              rw [List.get?_set_ne _ _ hr0]
              exact ht
            have hrec := ih (pool.set r0 (Track.update_model t0 d0 f)) hnd.2 hmem ht'
            simp only [process_matches, h0, h1, hs, if_true]
            exact ⟨fun hstate => List.mem_cons_of_mem _ (hrec.1 hstate),
                   fun hstate => hrec.2 hstate⟩
          · have ht' : (pool.set r0 (Track.re_activate_model t0 d0 f false 0)).get? r =
                some t := by
              rw [List.get?_set_ne _ _ hr0]
              exact ht
            have hrec := ih (pool.set r0 (Track.re_activate_model t0 d0 f false 0))
              hnd.2 hmem ht'
            simp only [process_matches, h0, h1, if_neg hs]
            exact ⟨fun hstate => hrec.1 hstate,
                   fun hstate => ⟨List.mem_cons_of_mem _ (hrec.2 hstate).1,
                     (hrec.2 hstate).2⟩⟩

/-- C8 witness: a single match (0,0) between a Tracked pool track and a
high-confidence tracklet. -/
theorem c8_first_association_dispatch_witness :
    (([((0 : ℕ), (0 : ℕ))].map Prod.fst).Nodup ∧
      ((0 : ℕ), (0 : ℕ)) ∈ [((0 : ℕ), (0 : ℕ))] ∧
      [sampleTrack].get? 0 = some sampleTrack ∧
      [sampleLowTracklet].get? 0 = some sampleLowTracklet) ∧
    ((sampleTrack.state = TrackState.Tracked →
        Track.update_model sampleTrack sampleLowTracklet 5 ∈
          (process_matches 5 [sampleLowTracklet] [sampleTrack] [(0, 0)]).2.1) ∧
     (sampleTrack.state ≠ TrackState.Tracked →
        Track.re_activate_model sampleTrack sampleLowTracklet 5 false 0 ∈
            (process_matches 5 [sampleLowTracklet] [sampleTrack] [(0, 0)]).2.2 ∧
          (Track.re_activate_model sampleTrack sampleLowTracklet 5 false 0).track_id =
            sampleTrack.track_id)) :=
  ⟨⟨by simp, by simp, rfl, rfl⟩,
    c8_first_association_dispatch 5 [sampleTrack] [sampleLowTracklet]
      [(0, 0)] 0 0 sampleTrack sampleLowTracklet (by simp) (by simp) rfl rfl⟩

/-- The loop `mark_lost_loop` leaves every entry at an unvisited index
unchanged. -/
theorem mark_lost_loop_get_of_not_mem (cands : List Track) (idxs : List ℕ) (j : ℕ)
    (hj : j ∉ idxs) : (mark_lost_loop cands idxs).1.get? j = cands.get? j := by
  induction idxs generalizing cands with
  | nil => rfl
  | cons i rest ih =>
    have hji : j ≠ i := fun e => hj (by simp [e])
    have hjr : j ∉ rest := fun hc => hj (List.mem_cons_of_mem _ hc)
    rcases h0 : cands.get? i with _ | t
    · simp only [mark_lost_loop, h0]
      exact ih cands hjr
    · by_cases hs : t.state = TrackState.Lost
      · simp only [mark_lost_loop, h0, hs, if_true]
        exact ih cands hjr
      · simp only [mark_lost_loop, h0, if_neg hs]
        rw [ih _ hjr, List.get?_set_ne _ _ (Ne.symm hji)]

/-- The loop of lines 182–189: a visited candidate that is not already
`Lost` is marked and collected, and its slot now holds the marked copy; a
visited candidate already `Lost` is left untouched. -/
theorem mark_lost_loop_spec (cands : List Track) (idxs : List ℕ) (j : ℕ) (t : Track)
    (hnd : idxs.Nodup) (hj : j ∈ idxs) (ht : cands.get? j = some t) :
    (t.state ≠ TrackState.Lost →
        Track.mark_lost_model t ∈ (mark_lost_loop cands idxs).2 ∧
        (mark_lost_loop cands idxs).1.get? j = some (Track.mark_lost_model t)) ∧
    (t.state = TrackState.Lost →
        (mark_lost_loop cands idxs).1.get? j = some t) := by
  induction idxs generalizing cands with
  | nil => cases hj
  | cons i rest ih =>
    rw [List.nodup_cons] at hnd
    rcases List.mem_cons.mp hj with rfl | hmem
    · constructor
      · intro hnl
        simp only [mark_lost_loop, ht, if_neg hnl]
        refine ⟨List.mem_cons_self _ _, ?_⟩
        rw [mark_lost_loop_get_of_not_mem _ _ _ hnd.1]
        obtain ⟨hlt, -⟩ := List.get?_eq_some.mp ht
        exact List.get?_set_eq_of_lt _ hlt
      · intro hl
        simp only [mark_lost_loop, ht, hl, if_true]
        rw [mark_lost_loop_get_of_not_mem _ _ _ hnd.1]
        exact ht
    · have hji : j ≠ i := fun e => hnd.1 (e ▸ hmem)
      rcases h0 : cands.get? i with _ | s
      · simp only [mark_lost_loop, h0]
        exact ih cands hnd.2 hmem ht
      · by_cases hs : s.state = TrackState.Lost
        · simp only [mark_lost_loop, h0, hs, if_true]
          exact ih cands hnd.2 hmem ht
        · have ht' : (cands.set i (Track.mark_lost_model s)).get? j = some t := by
            rw [List.get?_set_ne _ _ (Ne.symm hji)]
            exact ht
          have hrec := ih (cands.set i (Track.mark_lost_model s)) hnd.2 hmem ht'
          simp only [mark_lost_loop, h0, if_neg hs]
          exact ⟨fun hnl => ⟨List.mem_cons_of_mem _ (hrec.1 hnl).1, (hrec.1 hnl).2⟩,
                 fun hl => hrec.2 hl⟩

/-- C9: assuming the pool invariant (every pool track is `Tracked` or
`Lost`) and distinct stage-2 unmatched indices: a pool track left unmatched
by stage 1 that is not already `Lost` enters the stage-2 candidate list, and
every stage-2 candidate left unmatched by stage 2 that is not already `Lost`
is marked `Lost` and collected into the newly-lost list — its slot now holds
the marked (state `Lost`) copy — while an already-`Lost` track is not
re-marked. -/
theorem c9_unmatched_after_both_marked_lost (pool : List Track) (u1 u2 : List ℕ)
    (hpool : ∀ t ∈ pool, t.state = TrackState.Tracked ∨ t.state = TrackState.Lost)
    (hnd : u2.Nodup) :
    (∀ i t, i ∈ u1 → pool.get? i = some t → t.state ≠ TrackState.Lost →
        t ∈ unmatched_tracked_after_first pool u1) ∧
    (∀ j t, j ∈ u2 →
        (unmatched_tracked_after_first pool u1).get? j = some t →
        (t.state ≠ TrackState.Lost →
            Track.mark_lost_model t ∈
              (mark_lost_loop (unmatched_tracked_after_first pool u1) u2).2 ∧
            (mark_lost_loop (unmatched_tracked_after_first pool u1) u2).1.get? j =
              some (Track.mark_lost_model t) ∧
            (Track.mark_lost_model t).state = TrackState.Lost) ∧
        (t.state = TrackState.Lost →
            (mark_lost_loop (unmatched_tracked_after_first pool u1) u2).1.get? j =
              some t)) := by
  constructor
  · intro i t hi ht hnl
    have hmem : t ∈ pool := List.get?_mem ht
    have hstate : t.state = TrackState.Tracked := (hpool t hmem).resolve_right hnl
    unfold unmatched_tracked_after_first
    rw [List.mem_filter]
    exact ⟨List.mem_filterMap.mpr ⟨i, hi, ht⟩, by simp [hstate]⟩
  · intro j t hj ht
    have h := mark_lost_loop_spec (unmatched_tracked_after_first pool u1) u2 j t hnd hj ht
    exact ⟨fun hnl => ⟨(h.1 hnl).1, (h.1 hnl).2, rfl⟩, h.2⟩

/-- C9 witness: one Tracked pool track, unmatched in stage 1 (index 0) and
in stage 2 (index 0): its marked copy is collected. -/
theorem c9_unmatched_after_both_marked_lost_witness :
    Track.mark_lost_model sampleTrack ∈
      (mark_lost_loop (unmatched_tracked_after_first [sampleTrack] [0]) [0]).2 :=
  (((c9_unmatched_after_both_marked_lost [sampleTrack] [0] [0]
      (by
        intro t htm
        rw [List.mem_singleton] at htm
        subst htm
        exact Or.inl rfl)
      (by simp)).2 0 sampleTrack (by simp) rfl).1
    (by
      intro h
      exact TrackState.noConfusion h)).1

/-- C10: `_frame_id` starts at 0 at construction (line 26), every call to
`track` increments it by exactly one at entry (line 49) before any other
processing, and hence after `n` calls it equals `n`, independently of the
frames' contents. -/
theorem c10_frame_id_counts_calls (th : ℚ)
    (frames : List (FrameOracle × ℤ × ℤ × List Detection)) :
    initial_state.frame_id = 0 ∧
    (∀ oracle cols rows dets s,
        (track_step th oracle cols rows dets s).1.frame_id = s.frame_id + 1) ∧
    (run_tracker th frames initial_state).frame_id = frames.length := by
  refine ⟨rfl, fun _ _ _ _ _ => rfl, ?_⟩
  rw [run_tracker_frame_id]
  simp [initial_state]

end BoTSORT
